import Mathlib

/-!
# password_assigner_button.js

A shallow embedding of `static/src/js/password_assigner_button.js`: the class
`PasswordAssignerListController` (methods `setup` and `onAssignPasswordsClick`)
and the module-level registration in the `views` registry.

JavaScript objects are ordered property lists.  Everything the module imports
(`ListController`, `useService`, `registry`, the action service) is the hosting
framework; it is a parameter of the development (`Host`), it owns a state of
its own, and each of its entry points may return a value or raise.  Every call
that crosses into the framework is appended to a trace.
-/

namespace PasswordAssigner

/-! ## Values -/

/-- JavaScript values occurring in the module. `hostObj` is an object owned by
the framework (a service, a registry), known by its identity only; `cls` is a
class, known by its name. -/
inductive Val where
  | undefined
  | bool (b : Bool)
  | str (s : String)
  | arr (items : List Val)
  | obj (props : List (String × Val))
  | cls (name : String)
  | hostObj (id : Nat)

/-- Own properties of an object, in insertion order. -/
abbrev Obj := List (String × Val)

/-- Property read `o[k]`; `none` when `o` has no own property `k`. -/
def getProp : Obj → String → Option Val
  | [], _ => none
  | (k, v) :: rest, key => if k = key then some v else getProp rest key

/-- Property write `o[k] = v`: an existing property keeps its position, a new
one is appended. -/
def setProp : Obj → String → Val → Obj
  | [], key, v => [(key, v)]
  | (k, old) :: rest, key, v =>
    if k = key then (k, v) :: rest else (k, old) :: setProp rest key v

/-- Property names of an object. -/
def keys (o : Obj) : List String := o.map Prod.fst

/-- Object spread `{...source}` into `target`: every own property of `source`
is written to `target`, in order. -/
def spreadInto (target source : Obj) : Obj :=
  source.foldl (fun acc kv => setProp acc kv.1 kv.2) target

/-! ## The hosting framework -/

/-- What a `throw` carries: the engine's own `TypeError`, or a value raised by
the framework. -/
inductive Thrown where
  | typeError
  | value (v : Val)

/-- Calls that cross from the module into the framework. -/
inductive Event where
  /-- The call `super.setup()`. -/
  | superSetup
  /-- The call `useService(name)`. -/
  | useService (name : String)
  /-- The call `registry.category(name)`. -/
  | registryCategory (name : String)
  /-- The call `receiver.method(...args)` on a framework object. -/
  | call (receiver : Nat) (method : String) (args : List Val)

/-- The framework, with its own state `η`. Each entry point returns its
completion and the next framework state; `superSetup` also returns the
controller as `ListController.prototype.setup` left it. -/
structure Host (η : Type) where
  superSetup : Obj → η → Except Thrown Unit × Obj × η
  useService : String → η → Except Thrown Nat × η
  registryCategory : String → η → Except Thrown Nat × η
  callMethod : Nat → String → List Val → η → Except Thrown Val × η

/-- Framework state and the trace of calls made so far. -/
structure World (η : Type) where
  host : η
  trace : List Event

/-- Append one event to the trace and move the framework to state `h`. -/
def World.step {η : Type} (w : World η) (e : Event) (h : η) : World η :=
  { host := h, trace := w.trace ++ [e] }

/-! ## PasswordAssignerListController -/

/-- The class itself, as a value. -/
def PasswordAssignerListController : Val := .cls "PasswordAssignerListController"

/-- Method `setup`:
```
super.setup();
this.action = useService("action");
```
Returns the completion, the controller and the world afterwards. -/
def setup {η : Type} (H : Host η) (this : Obj) (w : World η) :
    Except Thrown Val × Obj × World η :=
  match H.superSetup this w.host with
  | (.error e, this1, h1) => (.error e, this1, w.step .superSetup h1)
  | (.ok _, this1, h1) =>
    let w1 := w.step .superSetup h1
    match H.useService "action" h1 with
    | (.error e, h2) => (.error e, this1, w1.step (.useService "action") h2)
    | (.ok s, h2) =>
      (.ok .undefined, setProp this1 "action" (.hostObj s),
        w1.step (.useService "action") h2)

/-- The object literal passed to `doAction`. -/
def actionRecord : Val :=
  .obj [("type", .str "ir.actions.act_window"),
        ("res_model", .str "password.assigner.wizard"),
        ("name", .str "Asignar Contraseñas de Pago"),
        ("view_mode", .str "form"),
        ("views", .arr [.arr [.bool false, .str "form"]]),
        ("target", .str "new"),
        ("res_id", .bool false),
        ("context", .obj [])]

/-- Method `onAssignPasswordsClick`:
```
this.action.doAction({ ... });
```
When `this.action` is not a framework object (it is `undefined` before `setup`,
and no other value of `Val` has a callable `doAction`), the engine raises a
`TypeError` before any call is made; the value `doAction` returns is dropped. -/
def onAssignPasswordsClick {η : Type} (H : Host η) (this : Obj) (w : World η) :
    Except Thrown Val × Obj × World η :=
  match getProp this "action" with
  | some (.hostObj s) =>
    match H.callMethod s "doAction" [actionRecord] w.host with
    | (.error e, h1) => (.error e, this, w.step (.call s "doAction" [actionRecord]) h1)
    | (.ok _, h1) => (.ok .undefined, this, w.step (.call s "doAction" [actionRecord]) h1)
  | _ => (.error .typeError, this, w)

/-! ## Module-level registration -/

/-- The object literal
`{ ...listView, Controller: PasswordAssignerListController, buttonTemplate: "..." }`. -/
def viewBundle (listView : Obj) : Obj :=
  setProp
    (setProp (spreadInto [] listView) "Controller" PasswordAssignerListController)
    "buttonTemplate" (.str "adroc_password_assigner.ListView.Buttons")

/-- The statement
`registry.category("views").add("password_assigner_list_button", { ... })`. -/
def registerView {η : Type} (H : Host η) (listView : Obj) (w : World η) :
    Except Thrown Val × World η :=
  match H.registryCategory "views" w.host with
  | (.error e, h1) => (.error e, w.step (.registryCategory "views") h1)
  | (.ok r, h1) =>
    let w1 := w.step (.registryCategory "views") h1
    let args := [.str "password_assigner_list_button", .obj (viewBundle listView)]
    match H.callMethod r "add" args h1 with
    | (.error e, h2) => (.error e, w1.step (.call r "add" args) h2)
    | (.ok v, h2) => (.ok v, w1.step (.call r "add" args) h2)

/-! ## Repeated clicks -/

/-- `n` clicks in a row on the same controller; a click that raises ends the
sequence. -/
def clicks {η : Type} (H : Host η) : Nat → Obj → World η →
    Except Thrown Val × Obj × World η
  | 0, this, w => (.ok .undefined, this, w)
  | n + 1, this, w =>
    match onAssignPasswordsClick H this w with
    | (.error e, this1, w1) => (.error e, this1, w1)
    | (.ok _, this1, w1) => clicks H n this1 w1

/-- The records handed to `doAction` of service `s` in a trace. -/
def sentRecords (s : Nat) : List Event → List (List Val)
  | [] => []
  | .call r m args :: rest =>
    if r = s ∧ m = "doAction" then args :: sentRecords s rest else sentRecords s rest
  | _ :: rest => sentRecords s rest

/-- The framework state after service `s` has served `n` consecutive
`doAction` calls with the fixed record, starting from state `h`. -/
def afterDoActions {η : Type} (H : Host η) (s : Nat) : Nat → η → η
  | 0, h => h
  | n + 1, h => afterDoActions H s n (H.callMethod s "doAction" [actionRecord] h).2

/-- A succeeding action service: each of the first `n` consecutive `doAction`
calls on service `s`, starting from state `h`, returns normally. -/
def DoActionSucceeds {η : Type} (H : Host η) (s n : Nat) (h : η) : Prop :=
  ∀ k, k < n →
    ∃ v, (H.callMethod s "doAction" [actionRecord] (afterDoActions H s k h)).1 = .ok v

/-! ## Sample frameworks -/

/-- A framework that counts the calls it has served; `doAction` returns the
count, `useService` hands out service 7 and `registry.category` registry 3. -/
def countingHost : Host Nat where
  superSetup := fun this h => (.ok (), setProp this "model" (.hostObj 1), h + 1)
  useService := fun _ h => (.ok 7, h + 1)
  registryCategory := fun _ h => (.ok 3, h + 1)
  callMethod := fun _ _ _ h => (.ok (.hostObj h), h + 1)

/-- A framework whose every method call raises the string `"rpc"`. -/
def failingHost : Host Nat where
  superSetup := fun this h => (.ok (), this, h)
  useService := fun _ h => (.ok 7, h)
  registryCategory := fun _ h => (.ok 3, h)
  callMethod := fun _ _ _ h => (.error (.value (.str "rpc")), h)

/-- A framework in which only service 9 answers: every other method call
raises. Its state counts the calls service 9 has served. -/
def selectiveHost : Host Nat where
  superSetup := fun this h => (.ok (), this, h)
  useService := fun _ h => (.ok 9, h)
  registryCategory := fun _ h => (.ok 3, h)
  callMethod := fun r _ _ h =>
    if r = 9 then (.ok .undefined, h + 1) else (.error .typeError, h)

/-- A controller on which `setup` has stored service 7. -/
def readyController : Obj := [("model", .hostObj 1), ("action", .hostObj 7)]

/-- A small list-view configuration. -/
def sampleListView : Obj :=
  [("type", .str "list"), ("Controller", .cls "ListController"),
   ("buttonTemplate", .str "web.ListView.Buttons")]

/-! ## Properties of objects -/

theorem getProp_setProp_same (o : Obj) (k : String) (v : Val) :
    getProp (setProp o k v) k = some v := by
  induction o with
  | nil => simp [setProp, getProp]
  | cons kv rest ih =>
    obtain ⟨k0, v0⟩ := kv
    by_cases h : k0 = k
    · simp [setProp, getProp, h]
    · simp [setProp, getProp, h, ih]

theorem getProp_setProp_other (o : Obj) (k f : String) (v : Val) (hf : f ≠ k) :
    getProp (setProp o k v) f = getProp o f := by
  induction o with
  | nil =>
    have hk : ¬ k = f := fun h => hf h.symm
    simp [setProp, getProp, hk]
  | cons kv rest ih =>
    obtain ⟨k0, v0⟩ := kv
    by_cases h : k0 = k
    · subst h
      have hk : ¬ k0 = f := fun h => hf h.symm
      simp [setProp, getProp, hk]
    · by_cases h2 : k0 = f
      · subst h2
        simp [setProp, getProp, h]
      · simp [setProp, getProp, h, h2, ih]

theorem getProp_eq_none_of_not_mem (o : Obj) (f : String) (h : f ∉ keys o) :
    getProp o f = none := by
  induction o with
  | nil => rfl
  | cons kv rest ih =>
    obtain ⟨k0, v0⟩ := kv
    simp only [keys, List.map_cons, List.mem_cons, not_or] at h
    have hk : ¬ k0 = f := fun e => h.1 e.symm
    simp only [getProp, hk, if_false]
    exact ih h.2

/-- Reading a spread: a property of the source wins over the target's. -/
theorem getProp_spreadInto (source : Obj) (hs : (keys source).Nodup) (target : Obj)
    (f : String) :
    getProp (spreadInto target source) f =
      (match getProp source f with
       | some v => some v
       | none => getProp target f) := by
  induction source generalizing target with
  | nil => simp [spreadInto, getProp]
  | cons kv rest ih =>
    obtain ⟨k0, v0⟩ := kv
    simp only [keys, List.map_cons, List.nodup_cons] at hs
    have hrest := ih hs.2 (setProp target k0 v0)
    simp only [spreadInto, List.foldl_cons] at hrest ⊢
    rw [hrest]
    by_cases h : k0 = f
    · subst h
      rw [getProp_eq_none_of_not_mem rest k0 hs.1]
      simp [getProp, getProp_setProp_same]
    · have hf : f ≠ k0 := fun e => h e.symm
      simp only [getProp, h, if_false]
      rw [getProp_setProp_other target k0 f v0 hf]

theorem getProp_spreadInto_nil (source : Obj) (hs : (keys source).Nodup) (f : String) :
    getProp (spreadInto [] source) f = getProp source f := by
  rw [getProp_spreadInto source hs [] f]
  cases getProp source f <;> rfl

/-! ## The click handler -/

/-- With a service in `this.action`, the handler is one `doAction` call whose
completion decides the handler's. -/
theorem onAssignPasswordsClick_eq {η : Type} (H : Host η) (this : Obj) (w : World η)
    (s : Nat) (hs : getProp this "action" = some (.hostObj s)) :
    onAssignPasswordsClick H this w =
      ((match (H.callMethod s "doAction" [actionRecord] w.host).1 with
        | .error e => .error e
        | .ok _ => .ok .undefined),
       this,
       w.step (.call s "doAction" [actionRecord])
         (H.callMethod s "doAction" [actionRecord] w.host).2) := by
  unfold onAssignPasswordsClick
  simp only [hs]
  rcases hc : H.callMethod s "doAction" [actionRecord] w.host with ⟨r, h1⟩
  cases r <;> rfl

/-- C1: on a controller whose `action` field holds the service stored by
`setup`, one run of `onAssignPasswordsClick` makes exactly one call, `doAction`
on that service with a single argument: the trace grows by that one event, the
framework is left in the state this one call produced from the state before
the click, the handler completes as the call did (raising what it raised,
`undefined` when it returned), and the record passed has `type`, `res_model`,
`view_mode`, `views`, `target`, `res_id` and `context` as listed. -/
theorem click_calls_doAction_once {η : Type} (H : Host η) (this : Obj) (w : World η)
    (s : Nat) (hs : getProp this "action" = some (.hostObj s)) :
    ∃ props : Obj,
      (onAssignPasswordsClick H this w).2.2.trace
        = w.trace ++ [.call s "doAction" [.obj props]] ∧
      (onAssignPasswordsClick H this w).2.2.host
        = (H.callMethod s "doAction" [.obj props] w.host).2 ∧
      (onAssignPasswordsClick H this w).1
        = (match (H.callMethod s "doAction" [.obj props] w.host).1 with
           | .error e => .error e
           | .ok _ => .ok .undefined) ∧
      getProp props "type" = some (.str "ir.actions.act_window") ∧
      getProp props "res_model" = some (.str "password.assigner.wizard") ∧
      getProp props "view_mode" = some (.str "form") ∧
      getProp props "views" = some (.arr [.arr [.bool false, .str "form"]]) ∧
      getProp props "target" = some (.str "new") ∧
      getProp props "res_id" = some (.bool false) ∧
      getProp props "context" = some (.obj []) := by
  rw [onAssignPasswordsClick_eq H this w s hs]
  refine ⟨_, rfl, rfl, rfl, ?_, ?_, ?_, ?_, ?_, ?_, ?_⟩ <;> simp [getProp]

theorem click_calls_doAction_once_witness :
    getProp readyController "action" = some (.hostObj 7) ∧
    ∃ props : Obj,
      (onAssignPasswordsClick countingHost readyController ⟨4, []⟩).2.2.trace
        = (World.mk 4 ([] : List Event)).trace ++ [.call 7 "doAction" [.obj props]] ∧
      (onAssignPasswordsClick countingHost readyController ⟨4, []⟩).2.2.host
        = (countingHost.callMethod 7 "doAction" [.obj props]
            (World.mk 4 ([] : List Event)).host).2 ∧
      (onAssignPasswordsClick countingHost readyController ⟨4, []⟩).1
        = (match (countingHost.callMethod 7 "doAction" [.obj props]
              (World.mk 4 ([] : List Event)).host).1 with
           | .error e => .error e
           | .ok _ => .ok .undefined) ∧
      getProp props "type" = some (.str "ir.actions.act_window") ∧
      getProp props "res_model" = some (.str "password.assigner.wizard") ∧
      getProp props "view_mode" = some (.str "form") ∧
      getProp props "views" = some (.arr [.arr [.bool false, .str "form"]]) ∧
      getProp props "target" = some (.str "new") ∧
      getProp props "res_id" = some (.bool false) ∧
      getProp props "context" = some (.obj []) :=
  ⟨by simp [getProp, readyController],
   click_calls_doAction_once countingHost readyController ⟨4, []⟩ 7
     (by simp [getProp, readyController])⟩

/-- C4: when the `doAction` call returns normally with any value `v`, the
handler returns normally and its result is `undefined`, whatever `v` is. -/
theorem click_returns_undefined {η : Type} (H : Host η) (this : Obj) (w : World η)
    (s : Nat) (v : Val) (h1 : η)
    (hs : getProp this "action" = some (.hostObj s))
    (hok : H.callMethod s "doAction" [actionRecord] w.host = (.ok v, h1)) :
    (onAssignPasswordsClick H this w).1 = .ok .undefined := by
  rw [onAssignPasswordsClick_eq H this w s hs, hok]

theorem click_returns_undefined_witness :
    getProp readyController "action" = some (.hostObj 7) ∧
    countingHost.callMethod 7 "doAction" [actionRecord] (World.mk 5 []).host
      = (.ok (.hostObj 5), 6) ∧
    (onAssignPasswordsClick countingHost readyController ⟨5, []⟩).1 = .ok .undefined :=
  ⟨by simp [getProp, readyController], rfl,
   click_returns_undefined countingHost readyController ⟨5, []⟩ 7 (.hostObj 5) 6
     (by simp [getProp, readyController]) rfl⟩

/-- C5: the handler raises `e` exactly when the `doAction` call raises `e`,
and whether or not it raises, the trace grew by the single `doAction` call
with the fixed record. -/
theorem click_propagates_failure {η : Type} (H : Host η) (this : Obj) (w : World η)
    (s : Nat) (hs : getProp this "action" = some (.hostObj s)) :
    (∀ e : Thrown,
      (onAssignPasswordsClick H this w).1 = .error e ↔
        (H.callMethod s "doAction" [actionRecord] w.host).1 = .error e) ∧
    (onAssignPasswordsClick H this w).2.2.trace
      = w.trace ++ [.call s "doAction" [actionRecord]] := by
  rw [onAssignPasswordsClick_eq H this w s hs]
  refine ⟨fun e => ?_, rfl⟩
  rcases H.callMethod s "doAction" [actionRecord] w.host with ⟨r, h1⟩
  cases r <;> simp

theorem click_propagates_failure_witness :
    getProp readyController "action" = some (.hostObj 7) ∧
    (∀ e : Thrown,
      (onAssignPasswordsClick failingHost readyController ⟨0, [.superSetup]⟩).1 = .error e ↔
        (failingHost.callMethod 7 "doAction" [actionRecord]
          (World.mk 0 [.superSetup]).host).1 = .error e) ∧
    (onAssignPasswordsClick failingHost readyController ⟨0, [.superSetup]⟩).2.2.trace
      = [.superSetup] ++ [.call 7 "doAction" [actionRecord]] :=
  ⟨by simp [getProp, readyController],
   click_propagates_failure failingHost readyController ⟨0, [.superSetup]⟩ 7
     (by simp [getProp, readyController])⟩

/-- C9: the record handed to `doAction` has the eight properties `type`,
`res_model`, `name`, `view_mode`, `views`, `target`, `res_id`, `context`, in
that order and no other, and its `name` is `Asignar Contraseñas de Pago`. -/
theorem click_record_fields {η : Type} (H : Host η) (this : Obj) (w : World η)
    (s : Nat) (hs : getProp this "action" = some (.hostObj s)) :
    ∃ props : Obj,
      (onAssignPasswordsClick H this w).2.2.trace
        = w.trace ++ [.call s "doAction" [.obj props]] ∧
      keys props = ["type", "res_model", "name", "view_mode", "views", "target",
        "res_id", "context"] ∧
      getProp props "name" = some (.str "Asignar Contraseñas de Pago") := by
  rw [onAssignPasswordsClick_eq H this w s hs]
  exact ⟨_, rfl, rfl, by simp [getProp]⟩

theorem click_record_fields_witness :
    getProp readyController "action" = some (.hostObj 7) ∧
    ∃ props : Obj,
      (onAssignPasswordsClick countingHost readyController ⟨2, []⟩).2.2.trace
        = [] ++ [.call 7 "doAction" [.obj props]] ∧
      keys props = ["type", "res_model", "name", "view_mode", "views", "target",
        "res_id", "context"] ∧
      getProp props "name" = some (.str "Asignar Contraseñas de Pago") :=
  ⟨by simp [getProp, readyController],
   click_record_fields countingHost readyController ⟨2, []⟩ 7
     (by simp [getProp, readyController])⟩

/-- The handler never writes to the controller. -/
theorem onAssignPasswordsClick_this {η : Type} (H : Host η) (this : Obj) (w : World η) :
    (onAssignPasswordsClick H this w).2.1 = this := by
  unfold onAssignPasswordsClick
  split
  · split <;> rfl
  · rfl

/-- C10: `onAssignPasswordsClick` returns the controller it was given, on every
run; after `setup`, every property other than `action` reads as it did when
the base `setup` handed the controller back. -/
theorem controller_frame {η : Type} (H : Host η) (this : Obj) (w : World η)
    (f : String) (hf : f ≠ "action") :
    (onAssignPasswordsClick H this w).2.1 = this ∧
    getProp (setup H this w).2.1 f = getProp (H.superSetup this w.host).2.1 f := by
  refine ⟨onAssignPasswordsClick_this H this w, ?_⟩
  unfold setup
  rcases H.superSetup this w.host with ⟨r, this1, h1⟩
  cases r with
  | error e => rfl
  | ok u =>
    rcases hu : H.useService "action" h1 with ⟨r2, h2⟩
    cases r2 with
    | error e => simp only [hu]
    | ok s =>
      simp only [hu]
      exact getProp_setProp_other this1 "action" f (.hostObj s) hf

theorem controller_frame_witness :
    "model" ≠ "action" ∧
    (onAssignPasswordsClick countingHost readyController ⟨0, []⟩).2.1 = readyController ∧
    getProp (setup countingHost readyController ⟨0, []⟩).2.1 "model"
      = getProp (countingHost.superSetup readyController (World.mk 0 []).host).2.1 "model" :=
  ⟨by decide, controller_frame countingHost readyController ⟨0, []⟩ "model" (by decide)⟩

/-! ## setup -/

/-- C2: when `setup` returns normally, the trace grew by exactly two events,
the base `setup` call followed by the lookup of the service named `action`,
and the controller's `action` property is the service that this lookup
returned. -/
theorem setup_order {η : Type} (H : Host η) (this : Obj) (w : World η)
    (r : Val) (this2 : Obj) (w2 : World η)
    (hrun : setup H this w = (.ok r, this2, w2)) :
    w2.trace = w.trace ++ [.superSetup, .useService "action"] ∧
    ∃ s : Nat,
      (H.useService "action" (H.superSetup this w.host).2.2).1 = .ok s ∧
      getProp this2 "action" = some (.hostObj s) := by
  unfold setup at hrun
  rcases hsup : H.superSetup this w.host with ⟨r1, this1, h1⟩
  rw [hsup] at hrun
  cases r1 with
  | error e => simp at hrun
  | ok u =>
    rcases hu : H.useService "action" h1 with ⟨r2, h2⟩
    simp only [hu] at hrun
    cases r2 with
    | error e => simp at hrun
    | ok s =>
      simp only [Prod.mk.injEq, Except.ok.injEq] at hrun
      obtain ⟨-, hthis, hw⟩ := hrun
      subst hthis
      subst hw
      refine ⟨by simp [World.step], s, by simp [hu], ?_⟩
      exact getProp_setProp_same this1 "action" (.hostObj s)

theorem setup_order_witness :
    setup countingHost [] ⟨0, []⟩
      = (.ok .undefined, [("model", .hostObj 1), ("action", .hostObj 7)],
          ⟨2, [.superSetup, .useService "action"]⟩) ∧
    (World.mk 2 [.superSetup, .useService "action"]).trace
      = (World.mk 0 []).trace ++ [.superSetup, .useService "action"] ∧
    ∃ s : Nat,
      (countingHost.useService "action"
        (countingHost.superSetup [] (World.mk 0 []).host).2.2).1 = .ok s ∧
      getProp [("model", .hostObj 1), ("action", .hostObj 7)] "action"
        = some (.hostObj s) :=
  ⟨by simp [setup, countingHost, setProp, World.step],
   setup_order countingHost [] ⟨0, []⟩ .undefined
     [("model", .hostObj 1), ("action", .hostObj 7)]
     ⟨2, [.superSetup, .useService "action"]⟩
     (by simp [setup, countingHost, setProp, World.step])⟩

/-! ## Registration -/

/-- Reading the registered bundle. -/
theorem getProp_viewBundle (listView : Obj) (hk : (keys listView).Nodup) :
    getProp (viewBundle listView) "Controller" = some PasswordAssignerListController ∧
    getProp (viewBundle listView) "buttonTemplate"
      = some (.str "adroc_password_assigner.ListView.Buttons") ∧
    ∀ f : String, f ≠ "Controller" → f ≠ "buttonTemplate" →
      getProp (viewBundle listView) f = getProp listView f := by
  unfold viewBundle
  refine ⟨?_, getProp_setProp_same _ _ _, fun f h1 h2 => ?_⟩
  · rw [getProp_setProp_other _ _ _ _ (by decide), getProp_setProp_same]
  · rw [getProp_setProp_other _ _ _ _ h2, getProp_setProp_other _ _ _ _ h1,
      getProp_spreadInto_nil listView hk f]

/-- C3: once `registry.category("views")` has returned a registry `r`, the
module calls `r.add` with the key `password_assigner_list_button` and a bundle
`B`: the trace grows by the lookup and that call, the framework is left in the
state this `add` call produced from the state the lookup left, and the
statement completes as `add` did. `B` has `Controller` equal to
`PasswordAssignerListController`, `buttonTemplate` equal to
`adroc_password_assigner.ListView.Buttons`, and every other property is
present exactly when `listView` has it, with the same value. -/
theorem registerView_bundle {η : Type} (H : Host η) (listView : Obj) (w : World η)
    (r : Nat) (h1 : η) (hk : (keys listView).Nodup)
    (hcat : H.registryCategory "views" w.host = (.ok r, h1)) :
    ∃ B : Obj,
      (registerView H listView w).2.trace
        = w.trace ++ [.registryCategory "views",
            .call r "add" [.str "password_assigner_list_button", .obj B]] ∧
      (registerView H listView w).2.host
        = (H.callMethod r "add" [.str "password_assigner_list_button", .obj B] h1).2 ∧
      (registerView H listView w).1
        = (H.callMethod r "add" [.str "password_assigner_list_button", .obj B] h1).1 ∧
      getProp B "Controller" = some PasswordAssignerListController ∧
      getProp B "buttonTemplate" = some (.str "adroc_password_assigner.ListView.Buttons") ∧
      ∀ f : String, f ≠ "Controller" → f ≠ "buttonTemplate" →
        getProp B f = getProp listView f := by
  refine ⟨viewBundle listView, ?_, ?_, ?_, getProp_viewBundle listView hk⟩
  all_goals
    unfold registerView
    rw [hcat]
    simp only
    rcases H.callMethod r "add"
      [.str "password_assigner_list_button", .obj (viewBundle listView)] h1 with ⟨r2, h2⟩
    cases r2 <;> simp [World.step]

theorem registerView_bundle_witness :
    (keys sampleListView).Nodup ∧
    countingHost.registryCategory "views" (World.mk 0 []).host = (.ok 3, 1) ∧
    ∃ B : Obj,
      (registerView countingHost sampleListView ⟨0, []⟩).2.trace
        = (World.mk 0 ([] : List Event)).trace ++ [.registryCategory "views",
            .call 3 "add" [.str "password_assigner_list_button", .obj B]] ∧
      (registerView countingHost sampleListView ⟨0, []⟩).2.host
        = (countingHost.callMethod 3 "add"
            [.str "password_assigner_list_button", .obj B] 1).2 ∧
      (registerView countingHost sampleListView ⟨0, []⟩).1
        = (countingHost.callMethod 3 "add"
            [.str "password_assigner_list_button", .obj B] 1).1 ∧
      getProp B "Controller" = some PasswordAssignerListController ∧
      getProp B "buttonTemplate" = some (.str "adroc_password_assigner.ListView.Buttons") ∧
      ∀ f : String, f ≠ "Controller" → f ≠ "buttonTemplate" →
        getProp B f = getProp sampleListView f :=
  ⟨by simp [keys, sampleListView], rfl,
   registerView_bundle countingHost sampleListView ⟨0, []⟩ 3 1
     (by simp [keys, sampleListView]) rfl⟩

/-! ## Repeated clicks -/

theorem sentRecords_replicate (s : Nat) (args : List Val) (n : Nat) :
    sentRecords s (List.replicate n (.call s "doAction" args)) = List.replicate n args := by
  induction n with
  | zero => rfl
  | succ n ih => simp [List.replicate_succ, sentRecords, ih]

theorem DoActionSucceeds.tail {η : Type} {H : Host η} {s n : Nat} {h : η}
    (hH : DoActionSucceeds H s (n + 1) h) :
    DoActionSucceeds H s n (H.callMethod s "doAction" [actionRecord] h).2 :=
  fun k hk => hH (k + 1) (Nat.succ_lt_succ hk)

/-- When each of the `n` calls returns, `n` clicks all run, leave the
controller as it was, add `n` identical calls to the trace and leave the
framework in the state those `n` calls produced. -/
theorem clicks_eq {η : Type} (H : Host η) (this : Obj)
    (s : Nat) (hs : getProp this "action" = some (.hostObj s)) (n : Nat) (w : World η)
    (hH : DoActionSucceeds H s n w.host) :
    (clicks H n this w).1 = .ok .undefined ∧ (clicks H n this w).2.1 = this ∧
    (clicks H n this w).2.2.trace
      = w.trace ++ List.replicate n (.call s "doAction" [actionRecord]) ∧
    (clicks H n this w).2.2.host = afterDoActions H s n w.host := by
  induction n generalizing w with
  | zero => simp [clicks, afterDoActions]
  | succ n ih =>
    obtain ⟨v, hv⟩ := hH 0 (Nat.succ_pos n)
    have hstep := onAssignPasswordsClick_eq H this w s hs
    simp only [afterDoActions] at hv
    rw [hv] at hstep
    simp only [clicks, hstep]
    obtain ⟨ha, hb, hc, hd⟩ :=
      ih (w.step (.call s "doAction" [actionRecord])
        (H.callMethod s "doAction" [actionRecord] w.host).2) hH.tail
    refine ⟨ha, hb, ?_, ?_⟩
    · rw [hc]
      simp [World.step, List.replicate_succ]
    · rw [hd]
      simp [World.step, afterDoActions]

/-- C8: with a succeeding action service (each of the `n` `doAction` calls
returns), `n` clicks on one controller make exactly `n` calls, each `doAction`
on the stored service with the same fixed record: the trace grows by these `n`
events and the framework is left in the state that `n` such calls produce;
and two runs of `n` clicks, from any two controllers, worlds and frameworks,
hand over the same records. -/
theorem clicks_send_fixed_record {η₁ η₂ : Type} (H1 : Host η₁) (H2 : Host η₂)
    (n : Nat) (this1 this2 : Obj) (w1 : World η₁) (w2 : World η₂) (s1 s2 : Nat)
    (hs1 : getProp this1 "action" = some (.hostObj s1))
    (hs2 : getProp this2 "action" = some (.hostObj s2))
    (ok1 : DoActionSucceeds H1 s1 n w1.host) (ok2 : DoActionSucceeds H2 s2 n w2.host) :
    (clicks H1 n this1 w1).2.2.trace
      = w1.trace ++ List.replicate n (.call s1 "doAction" [actionRecord]) ∧
    (clicks H1 n this1 w1).2.2.host = afterDoActions H1 s1 n w1.host ∧
    sentRecords s1 ((clicks H1 n this1 w1).2.2.trace.drop w1.trace.length)
      = List.replicate n [actionRecord] ∧
    sentRecords s1 ((clicks H1 n this1 w1).2.2.trace.drop w1.trace.length)
      = sentRecords s2 ((clicks H2 n this2 w2).2.2.trace.drop w2.trace.length) := by
  have e1 := (clicks_eq H1 this1 s1 hs1 n w1 ok1).2.2
  have e2 := (clicks_eq H2 this2 s2 hs2 n w2 ok2).2.2
  refine ⟨e1.1, e1.2, ?_, ?_⟩
  · rw [e1.1, List.drop_left, sentRecords_replicate]
  · rw [e1.1, e2.1, List.drop_left, List.drop_left, sentRecords_replicate,
      sentRecords_replicate]

theorem clicks_send_fixed_record_witness :
    getProp readyController "action" = some (.hostObj 7) ∧
    getProp [("action", .hostObj 9), ("selection", .arr [.str "a"])] "action"
      = some (.hostObj 9) ∧
    DoActionSucceeds countingHost 7 3 (World.mk 0 ([] : List Event)).host ∧
    DoActionSucceeds selectiveHost 9 3 (World.mk 4 [Event.superSetup]).host ∧
    (clicks countingHost 3 readyController ⟨0, []⟩).2.2.trace
      = (World.mk 0 ([] : List Event)).trace
          ++ List.replicate 3 (.call 7 "doAction" [actionRecord]) ∧
    (clicks countingHost 3 readyController ⟨0, []⟩).2.2.host
      = afterDoActions countingHost 7 3 (World.mk 0 ([] : List Event)).host ∧
    sentRecords 7 ((clicks countingHost 3 readyController ⟨0, []⟩).2.2.trace.drop
        (World.mk 0 ([] : List Event)).trace.length)
      = List.replicate 3 [actionRecord] ∧
    sentRecords 7 ((clicks countingHost 3 readyController ⟨0, []⟩).2.2.trace.drop
        (World.mk 0 ([] : List Event)).trace.length)
      = sentRecords 9
          ((clicks selectiveHost 3 [("action", .hostObj 9), ("selection", .arr [.str "a"])]
              ⟨4, [.superSetup]⟩).2.2.trace.drop
            (World.mk 4 [Event.superSetup]).trace.length) :=
  ⟨by simp [getProp, readyController], by simp [getProp],
   fun _ _ => ⟨_, rfl⟩, fun _ _ => ⟨.undefined, rfl⟩,
   clicks_send_fixed_record countingHost selectiveHost 3
     readyController [("action", .hostObj 9), ("selection", .arr [.str "a"])]
     ⟨0, []⟩ ⟨4, [.superSetup]⟩ 7 9
     (by simp [getProp, readyController]) (by simp [getProp])
     (fun _ _ => ⟨_, rfl⟩) (fun _ _ => ⟨.undefined, rfl⟩)⟩

end PasswordAssigner
